import Mathlib

/-!
Verification of the birthday-reminder batch job (`src/main.py`).

The program's own code is thin plumbing around the Python `datetime`
library, so the embedding has two layers:

* a model of the `datetime` library's proleptic-Gregorian calendar
  (`isLeapYear`, `daysInMonth`, `toOrdinal`, `fromOrdinal`, ...), following
  CPython's `datetime` implementation (its `_is_leap`, `_days_in_month`,
  `_days_before_month`, `_days_before_year` tables and the day-ordinal
  bijection used by `date.toordinal` / `date.fromordinal`; `date - timedelta`
  is `fromordinal (toordinal - days)` and two dates are equal iff their
  ordinals are);
* a direct translation of the repository's functions
  (`get_contact_data`'s per-record matching, `format_contact_message`,
  `send_message`, `main`).
-/

set_option maxRecDepth 20000

/-- A calendar date, the (year, month, day) triple carried by a Python
`datetime` object (the time-of-day part is irrelevant to the program:
only `.date()` values are ever compared). -/
structure Date where
  year : ℕ
  month : ℕ
  day : ℕ
deriving DecidableEq, Repr

/-- CPython `datetime._is_leap`: `year % 4 == 0 and (year % 100 != 0 or year % 400 == 0)`. -/
def isLeapYear (y : ℕ) : Bool :=
  decide (y % 4 = 0 ∧ (y % 100 ≠ 0 ∨ y % 400 = 0))

/-- CPython `datetime._DAYS_IN_MONTH` table (February entry before the leap
correction).  Months outside 1..12 are never consulted by the program; the
catch-all value 0 makes every out-of-range day count invalid. -/
def daysInMonthTable (m : ℕ) : ℕ :=
  if m = 1 then 31 else if m = 2 then 28 else if m = 3 then 31
  else if m = 4 then 30 else if m = 5 then 31 else if m = 6 then 30
  else if m = 7 then 31 else if m = 8 then 31 else if m = 9 then 30
  else if m = 10 then 31 else if m = 11 then 30 else if m = 12 then 31
  else 0

/-- CPython `datetime._days_in_month`: table value plus one for February of
a leap year. -/
def daysInMonth (y m : ℕ) : ℕ :=
  daysInMonthTable m + (if m = 2 ∧ isLeapYear y = true then 1 else 0)

/-- CPython `datetime._DAYS_BEFORE_MONTH` table: days in a non-leap year
strictly before month `m`.  Extended at 13 with the full year length so that
`daysBeforeMonth y 13` is the number of days of year `y`. -/
def daysBeforeMonthTable (m : ℕ) : ℕ :=
  if m = 1 then 0 else if m = 2 then 31 else if m = 3 then 59
  else if m = 4 then 90 else if m = 5 then 120 else if m = 6 then 151
  else if m = 7 then 181 else if m = 8 then 212 else if m = 9 then 243
  else if m = 10 then 273 else if m = 11 then 304 else if m = 12 then 334
  else 365

/-- CPython `datetime._days_before_month`: table value plus one when the
month is past February of a leap year. -/
def daysBeforeMonth (y m : ℕ) : ℕ :=
  daysBeforeMonthTable m + (if 2 < m ∧ isLeapYear y = true then 1 else 0)

/-- Length of year `y` in days. -/
def daysInYear (y : ℕ) : ℕ :=
  if isLeapYear y = true then 366 else 365

/-- CPython `datetime._days_before_year`: number of days before January 1 of
year `y` counted from the epoch of `date.toordinal` (January 1 of year 1 is
day 1). -/
def daysBeforeYear (y : ℕ) : ℕ :=
  (y - 1) * 365 + (y - 1) / 4 - (y - 1) / 100 + (y - 1) / 400

/-- `date.toordinal()`: the proleptic Gregorian day number of a date. -/
def toOrdinal (d : Date) : ℕ :=
  daysBeforeYear d.year + daysBeforeMonth d.year d.month + d.day

/-- The argument validation performed by the `datetime(year, month, day)`
constructor: it raises `ValueError` unless `1 <= year <= 9999`,
`1 <= month <= 12` and `1 <= day <= days_in_month(year, month)`. -/
def validDate (d : Date) : Prop :=
  1 ≤ d.year ∧ d.year ≤ 9999 ∧ 1 ≤ d.month ∧ d.month ≤ 12 ∧
    1 ≤ d.day ∧ d.day ≤ daysInMonth d.year d.month

instance (d : Date) : Decidable (validDate d) :=
  inferInstanceAs (Decidable (1 ≤ d.year ∧ d.year ≤ 9999 ∧ 1 ≤ d.month ∧ d.month ≤ 12 ∧
    1 ≤ d.day ∧ d.day ≤ daysInMonth d.year d.month))

/-- Shape of a well-formed date without the year-9999 cap; this is the
invariant `fromOrdinal` guarantees and the domain on which `toOrdinal` is
injective. -/
def DateOK (d : Date) : Prop :=
  1 ≤ d.year ∧ 1 ≤ d.month ∧ d.month ≤ 12 ∧ 1 ≤ d.day ∧ d.day ≤ daysInMonth d.year d.month

/-- Month/day search inside a fixed year `y`: given the day-of-year `n`
(1-based) and a starting month `m`, walk the months until `n` fits.
The fuel argument only bounds the recursion; 12 is always enough. -/
def fomAux (y : ℕ) : ℕ → ℕ → ℕ → ℕ × ℕ
  | 0, m, n => (m, n)
  | f + 1, m, n =>
    if n ≤ daysInMonth y m ∨ 12 ≤ m then (m, n)
    else fomAux y f (m + 1) (n - daysInMonth y m)

/-- Convert a 1-based day-of-year of year `y` into a (month, day) pair. -/
def fromOrdinalMonth (y n : ℕ) : ℕ × ℕ := fomAux y 12 1 n

/-- Year search of `date.fromordinal`: strip whole years off the day number
`n`, starting at year `y`.  The fuel argument only bounds the recursion;
every step removes at least 365 days, so fuel `n` is always enough. -/
def foyAux : ℕ → ℕ → ℕ → Date
  | 0, y, n => ⟨y, 1, n⟩
  | f + 1, y, n =>
    if daysInYear y < n then foyAux f (y + 1) (n - daysInYear y)
    else ⟨y, (fromOrdinalMonth y n).1, (fromOrdinalMonth y n).2⟩

/-- `date.fromordinal(n)`: the date whose `toOrdinal` is `n` (for `1 ≤ n`). -/
def fromOrdinal (n : ℕ) : Date := foyAux n 1 n

/-- `d - timedelta(days = n)` on dates: CPython computes
`fromordinal(toordinal(d) - n)` and raises `OverflowError` (modelled as
`none`) when the resulting ordinal would drop below 1. -/
def subDays (d : Date) (n : ℕ) : Option Date :=
  if n < toOrdinal d then some (fromOrdinal (toOrdinal d - n)) else none

/-- `datetime(current_date.year, original_event_date.month, original_event_date.day)`
from `get_contact_data`: `none` models the `ValueError` the constructor
raises on an invalid combination (e.g. Feb 29 in a non-leap year). -/
def candidateEvent (y : ℕ) (stored : Date) : Option Date :=
  if validDate ⟨y, stored.month, stored.day⟩ then some ⟨y, stored.month, stored.day⟩
  else none

/-- The date-matching core of `get_contact_data` for one record whose
`event_date` already parsed to `stored`: build the stored anniversary in
today's year, subtract `lead` days, and compare with today.
`candidateEvent = none` is the `ValueError` branch (record skipped, so it is
not a match); `subDays = none` is the `OverflowError` branch (the whole batch
is dropped by the outer `except`, so the record is not a match either). -/
def dateMatches (today stored : Date) (lead : ℕ) : Bool :=
  match candidateEvent today.year stored with
  | none => false
  | some c =>
    match subDays c lead with
    | none => false
    | some sendDate => today == sendDate

/-- Modelled from the spec: `recomputeEventForYear(today.year, storedDate)`,
the stored anniversary's month/day re-dated into a given year, used by the
spec's characterisation of `matches` (spec section 8). -/
def recomputeEventForYear (y : ℕ) (stored : Date) : Date :=
  ⟨y, stored.month, stored.day⟩

/-- Split a character list at every dash, the shape `strptime` with format
`%Y-%m-%d` imposes on the input (the regex consumes the whole string, so a
malformed separator or leftover text fails the parse). -/
def splitDash : List Char → List (List Char)
  | [] => [[]]
  | c :: cs =>
    if c = '-' then [] :: splitDash cs
    else
      match splitDash cs with
      | [] => [[c]]
      | g :: gs => (c :: g) :: gs

/-- Numeric value of a digit string. -/
def digitsVal (l : List Char) : ℕ :=
  l.foldl (fun a c => 10 * a + (c.toNat - 48)) 0

/-- `datetime.strptime(event_date_str, '%Y-%m-%d')`: `%Y` is exactly four
digits, `%m` and `%d` one or two digits, separated by dashes with nothing
left over; the parsed numbers then go through the `datetime` constructor,
whose range check can still raise `ValueError`.  `none` models that
exception. -/
def parseDate (s : String) : Option Date :=
  match splitDash s.data with
  | [ys, ms, ds] =>
    if ys.length = 4 ∧ ys.all Char.isDigit = true ∧
        1 ≤ ms.length ∧ ms.length ≤ 2 ∧ ms.all Char.isDigit = true ∧
        1 ≤ ds.length ∧ ds.length ≤ 2 ∧ ds.all Char.isDigit = true then
      if validDate ⟨digitsVal ys, digitsVal ms, digitsVal ds⟩ then
        some ⟨digitsVal ys, digitsVal ms, digitsVal ds⟩
      else none
    else none
  | _ => none

/-- One row of the `contact` table as selected by `get_contact_data`
(`name, message, event_date` with `event_type` already filtered server-side).
`none` models a missing key or SQL NULL (`record.get` returns Python
`None` for both). -/
structure Record where
  name : Option String
  message : Option String
  event_date : Option String
deriving DecidableEq, Repr

/-- The body of `get_contact_data`'s per-record loop: decide whether the
record belongs to `target_records`.  `Except.ok b` means the iteration
continued (`b` = the record matched today); `Except.error ()` models an
exception other than `ValueError` escaping the per-record `try`
(`OverflowError` from the date subtraction), which aborts the whole loop. -/
def recordDecision (today : Date) (lead : ℕ) (r : Record) : Except Unit Bool :=
  match r.event_date with
  | none => Except.ok false
  | some s =>
    if s = "" then Except.ok false
    else
      match parseDate s with
      | none => Except.ok false
      | some stored =>
        match candidateEvent today.year stored with
        | none => Except.ok false
        | some c =>
          match subDays c lead with
          | none => Except.error ()
          | some sendDate => Except.ok (today == sendDate)

/-- The `for record in response.data` loop of `get_contact_data`,
accumulating `target_records` in input order and aborting on the first
uncaught exception. -/
def gatherTargets (today : Date) (lead : ℕ) : List Record → Except Unit (List Record)
  | [] => Except.ok []
  | r :: rs =>
    match recordDecision today lead r with
    | Except.error e => Except.error e
    | Except.ok b =>
      match gatherTargets today lead rs with
      | Except.error e => Except.error e
      | Except.ok ts => Except.ok (if b then r :: ts else ts)

/-- `SupabaseManager.get_contact_data`: `fetch` is the outcome of the
Supabase query (`Except.error ()` models any exception it raises); the outer
`except Exception` turns every failure, including a loop abort, into an
empty result list. -/
def get_contact_data (today : Date) (fetch : Except Unit (List Record)) : List Record :=
  match fetch with
  | Except.error _ => []
  | Except.ok rs =>
    match gatherTargets today 20 rs with
    | Except.error _ => []
    | Except.ok ts => ts

/-- A record the loop skips for data reasons: `event_date` missing (or NULL),
or its string does not parse in the fixed `YYYY-MM-DD` format. -/
def malformedRecord (r : Record) : Prop :=
  match r.event_date with
  | none => True
  | some s => parseDate s = none

/-- One line of `format_contact_message`'s loop body:
`f"<b>{name}</b>: {message} 🎂\n"` with the `dict.get` defaults. -/
def renderEntry (r : Record) : String :=
  "<b>" ++ r.name.getD "Неизвестно" ++ "</b>: " ++
    r.message.getD "Сообщение отсутствует" ++ " 🎂\n"

/-- The record loop of `format_contact_message`: every entry ends with a
newline and an extra separating newline is written between entries (not
after the last). -/
def renderEntries : List Record → String
  | [] => ""
  | r :: rs => renderEntry r ++ (if rs = [] then "" else "\n" ++ renderEntries rs)

/-- `SupabaseManager.format_contact_message`: empty input yields the fixed
no-records sentinel; otherwise bold header, blank line, the entries, and the
footer only when it is non-empty (Python string truthiness). -/
def format_contact_message (contacts : List Record) (header_text footer_text : String) : String :=
  if contacts = [] then header_text ++ "\n\n📋 На сегодня нет записей о днях рождения"
  else
    (if footer_text = "" then "<b>" ++ header_text ++ "</b>\n\n" ++ renderEntries contacts
     else "<b>" ++ header_text ++ "</b>\n\n" ++ renderEntries contacts ++ "\n\n" ++ footer_text)

/-- Status line of an HTTP response to `requests.post`. -/
structure HttpResponse where
  status : ℕ
deriving DecidableEq, Repr

/-- `response.raise_for_status()`: raises `HTTPError` (a
`RequestException`) for status codes 400 and above. -/
def raise_for_status (r : HttpResponse) : Except String HttpResponse :=
  if 400 ≤ r.status then Except.error "HTTPError" else Except.ok r

/-- `TelegramBot.send_message`: the argument is the outcome of
`requests.post` (`Except.error` models a raised `RequestException` such as a
timeout).  A 2xx/3xx response yields `True`; any `RequestException`,
including the one `raise_for_status` produces, is caught, logged and turned
into `False` — the exception never propagates. -/
def send_message (postResult : Except String HttpResponse) : Bool :=
  match postResult with
  | Except.error _ => false
  | Except.ok r =>
    match raise_for_status r with
    | Except.error _ => false
    | Except.ok _ => true

/-- Python truthiness of an optional environment-variable value: `None` and
the empty string are falsy (`if not self.bot_token: ...`). -/
def truthy : Option String → Bool
  | none => false
  | some s => decide (s ≠ "")

/-- The environment variables `main` and the two constructors read;
`none` models an unset variable. -/
structure Env where
  bot_token : Option String
  chat_id : Option String
  supabase_url : Option String
  supabase_key : Option String
  test_message : Option String
  custom_header : Option String
  custom_footer : Option String
deriving DecidableEq, Repr

/-- `TelegramBot.__init__` succeeds iff both Telegram credentials are set
and non-empty; otherwise it raises `ValueError("Missing Telegram credentials")`. -/
def telegramInitOk (env : Env) : Bool :=
  truthy env.bot_token && truthy env.chat_id

/-- `SupabaseManager.__init__` succeeds iff both Supabase credentials are
set and non-empty; otherwise it raises `ValueError("Missing Supabase credentials")`. -/
def supabaseInitOk (env : Env) : Bool :=
  truthy env.supabase_url && truthy env.supabase_key

/-- Result of one run of `main`: `success` carries the text of each message
handed to `send_message` (their Boolean send results are only logged and do
not influence control flow); `failure` carries the re-raised error message
(process exits non-zero) and whether the best-effort error notification was
actually delivered. -/
inductive MainOutcome where
  | success (sent : List String)
  | failure (errMsg : String) (notified : Bool)
deriving DecidableEq, Repr

/-- The `except Exception` tail of `main`: log, try to notify Telegram
(rebuilding the bot; any failure there is swallowed by the bare `except`),
then re-raise. -/
def errorOutcome (env : Env) (post : String → Except String HttpResponse) (e : String) :
    MainOutcome :=
  MainOutcome.failure ("❌ Error in Telegram bot: " ++ e)
    (telegramInitOk env && send_message (post ("❌ Error in Telegram bot: " ++ e)))

/-- The status message `main` sends when no record matched.  `nowStr` and
`targetStr` stand for the wall-clock strings `current_time` and
`target_date` (time is an input external to the program). -/
def statusMessage (nowStr targetStr : String) : String :=
  "✅ Бот работает! Время: " ++ nowStr ++ "\n📋 На " ++ targetStr ++
    " нет записей о днях рождения"

/-- Default `CUSTOM_HEADER` value computed in `main`. -/
def defaultHeader (targetStr : String) : String :=
  "📋 Напоминание о днях рождения (" ++ targetStr ++ "):"

/-- Default `CUSTOM_FOOTER` value computed in `main`. -/
def defaultFooter (nowStr : String) : String :=
  "✅ Отправлено: " ++ nowStr

/-- `main()`: initialise `SupabaseManager` then `TelegramBot` (missing
credentials raise and reach the `except Exception` tail), honour a truthy
`TEST_MESSAGE`, fetch and filter the records, and send either the
no-records status message or the formatted birthday message.  `post` is the
outcome of `requests.post` per message text. -/
def runMain (env : Env) (today : Date) (nowStr targetStr : String)
    (fetch : Except Unit (List Record)) (post : String → Except String HttpResponse) :
    MainOutcome :=
  if supabaseInitOk env = false then errorOutcome env post "Missing Supabase credentials"
  else if telegramInitOk env = false then errorOutcome env post "Missing Telegram credentials"
  else if truthy env.test_message = true then
    MainOutcome.success ["🧪 " ++ env.test_message.getD ""]
  else
    (if get_contact_data today fetch = [] then
      MainOutcome.success [statusMessage nowStr targetStr]
    else
      MainOutcome.success [format_contact_message (get_contact_data today fetch)
        (env.custom_header.getD (defaultHeader targetStr))
        (env.custom_footer.getD (defaultFooter nowStr))])

/-- Sample record with an `event_date` in the wrong format (`DD/MM/YYYY`). -/
def sampleBad : Record :=
  ⟨some "Анна", some "привет", some "05/09/1989"⟩

/-- Sample well-formed record whose anniversary is September 5. -/
def sampleGood : Record :=
  ⟨some "Борис", some "текст", some "1989-09-05"⟩

/-- Sample record whose send date underflows the calendar (year 1). -/
def sampleOverflow : Record :=
  ⟨some "Вера", some "ранняя", some "0001-01-10"⟩

/-- Sample environment with all four credentials present. -/
def envSample : Env :=
  ⟨some "token", some "chat", some "url", some "key", none, none, none⟩

/-- Sample environment with the Telegram credentials missing. -/
def envNoTelegram : Env :=
  ⟨none, none, some "url", some "key", none, none, none⟩

/-- Sample environment with the Supabase credentials missing. -/
def envNoSupabase : Env :=
  ⟨some "token", some "chat", none, none, none, none, none⟩

/-- A `requests.post` stub that always fails with a network error. -/
def postFail : String → Except String HttpResponse :=
  fun _ => Except.error "ConnectionError"

/-- A `requests.post` stub that always returns HTTP 200. -/
def postOk : String → Except String HttpResponse :=
  fun _ => Except.ok ⟨200⟩

example : toOrdinal ⟨1, 1, 1⟩ = 1 := by decide
example : toOrdinal ⟨2024, 9, 5⟩ = toOrdinal ⟨2024, 8, 16⟩ + 20 := by decide
example : fromOrdinal 1 = ⟨1, 1, 1⟩ := by decide
example : fromOrdinal 60 = ⟨1, 3, 1⟩ := by decide
example : subDays ⟨2024, 9, 5⟩ 20 = some ⟨2024, 8, 16⟩ := by decide
example : dateMatches ⟨2024, 8, 16⟩ ⟨1989, 9, 5⟩ 20 = true := by decide
example : dateMatches ⟨2024, 8, 17⟩ ⟨1989, 9, 5⟩ 20 = false := by decide
example : dateMatches ⟨2024, 12, 21⟩ ⟨1989, 1, 10⟩ 20 = false := by decide
example : dateMatches ⟨2023, 2, 8⟩ ⟨1992, 2, 29⟩ 20 = false := by decide
example : dateMatches ⟨2024, 2, 9⟩ ⟨1992, 2, 29⟩ 20 = true := by decide

/-! Basic arithmetic facts about the calendar tables. -/

theorem daysInYear_ge (y : ℕ) : 365 ≤ daysInYear y := by
  unfold daysInYear; split <;> omega

theorem daysBeforeYear_one : daysBeforeYear 1 = 0 := by
  unfold daysBeforeYear; rfl

theorem daysBeforeYear_zero : daysBeforeYear 0 = 0 := by
  unfold daysBeforeYear; rfl

set_option maxHeartbeats 1000000 in
theorem daysBeforeYear_succ (y : ℕ) (hy : 1 ≤ y) :
    daysBeforeYear (y + 1) = daysBeforeYear y + daysInYear y := by
  have hl : isLeapYear y = true ↔ (y % 4 = 0 ∧ (y % 100 ≠ 0 ∨ y % 400 = 0)) := by
    simp [isLeapYear]
  by_cases hL : isLeapYear y = true
  · have harith := hl.mp hL
    unfold daysBeforeYear daysInYear
    rw [if_pos hL]
    omega
  · have harith : ¬(y % 4 = 0 ∧ (y % 100 ≠ 0 ∨ y % 400 = 0)) := fun hh => hL (hl.mpr hh)
    unfold daysBeforeYear daysInYear
    rw [if_neg hL]
    omega

theorem daysBeforeYear_mono {y z : ℕ} (h : y ≤ z) :
    daysBeforeYear y ≤ daysBeforeYear z := by
  induction z with
  | zero =>
    have hy : y = 0 := by omega
    subst hy
    exact Nat.le_refl _
  | succ w ih =>
    rcases Nat.lt_or_ge y (w + 1) with hlt | hge
    · rcases Nat.eq_zero_or_pos w with hw | hw
      · subst hw
        have hy : y = 0 := by omega
        subst hy
        simp [daysBeforeYear_zero]
      · have hs := daysBeforeYear_succ w hw
        have hle := ih (by omega)
        omega
    · have hy : y = w + 1 := by omega
      subst hy
      exact Nat.le_refl _

theorem daysBeforeMonth_one (y : ℕ) : daysBeforeMonth y 1 = 0 := by
  unfold daysBeforeMonth daysBeforeMonthTable; simp

theorem daysBeforeMonth_step (y m : ℕ) (h1 : 1 ≤ m) (h2 : m ≤ 12) :
    daysBeforeMonth y (m + 1) = daysBeforeMonth y m + daysInMonth y m := by
  unfold daysBeforeMonth daysBeforeMonthTable daysInMonth daysInMonthTable
  interval_cases m <;> cases h : isLeapYear y <;> simp [h]

theorem daysBeforeMonth_13 (y : ℕ) : daysBeforeMonth y 13 = daysInYear y := by
  unfold daysBeforeMonth daysBeforeMonthTable daysInYear
  cases h : isLeapYear y <;> simp [h]

theorem daysBeforeMonth_mono (y : ℕ) {m n : ℕ} (h1 : 1 ≤ m) (hmn : m ≤ n) (h13 : n ≤ 13) :
    daysBeforeMonth y m ≤ daysBeforeMonth y n := by
  induction n, hmn using Nat.le_induction with
  | base => omega
  | succ n hn ih =>
    have hn12 : n ≤ 12 := by omega
    calc daysBeforeMonth y m ≤ daysBeforeMonth y n := ih (by omega)
      _ ≤ daysBeforeMonth y (n + 1) := by
          rw [daysBeforeMonth_step y n (by omega) hn12]; omega

theorem dayOfYear_le (y m d : ℕ) (h1 : 1 ≤ m) (h2 : m ≤ 12) (h3 : d ≤ daysInMonth y m) :
    daysBeforeMonth y m + d ≤ daysInYear y := by
  have hstep := daysBeforeMonth_step y m h1 h2
  have hmono := daysBeforeMonth_mono y (m := m + 1) (n := 13) (by omega) (by omega) (by omega)
  have h13 := daysBeforeMonth_13 y
  omega

theorem toOrdinal_pos (d : Date) (h : 1 ≤ d.day) : 1 ≤ toOrdinal d := by
  unfold toOrdinal; omega

theorem toOrdinal_bounds (d : Date) (h : DateOK d) :
    daysBeforeYear d.year < toOrdinal d ∧
      toOrdinal d ≤ daysBeforeYear d.year + daysInYear d.year := by
  obtain ⟨hy, hm1, hm2, hd1, hd2⟩ := h
  have := dayOfYear_le d.year d.month d.day hm1 hm2 hd2
  unfold toOrdinal; omega

/-! Correctness of the ordinal/date conversion: `toOrdinal` and `fromOrdinal`
are mutually inverse bijections between well-formed dates and positive day
numbers. -/

theorem fomAux_spec (y : ℕ) :
    ∀ f m k : ℕ, 1 ≤ m → m ≤ 12 → 1 ≤ k → daysBeforeMonth y m + k ≤ daysInYear y →
      12 - m < f →
      daysBeforeMonth y (fomAux y f m k).1 + (fomAux y f m k).2 = daysBeforeMonth y m + k ∧
        1 ≤ (fomAux y f m k).1 ∧ (fomAux y f m k).1 ≤ 12 ∧
        1 ≤ (fomAux y f m k).2 ∧ (fomAux y f m k).2 ≤ daysInMonth y (fomAux y f m k).1 := by
  intro f
  induction f with
  | zero =>
    intro m k h1 h2 hk hle hf
    omega
  | succ f ih =>
    intro m k h1 h2 hk hle hf
    by_cases hc : k ≤ daysInMonth y m ∨ 12 ≤ m
    · have heq : fomAux y (f + 1) m k = (m, k) := by
        simp only [fomAux]; rw [if_pos hc]
      rw [heq]
      refine ⟨rfl, h1, h2, hk, ?_⟩
      show k ≤ daysInMonth y m
      rcases hc with hc | hc
      · exact hc
      · have hm12 : m = 12 := by omega
        subst hm12
        have hstep := daysBeforeMonth_step y 12 (by omega) (by omega)
        norm_num at hstep
        have h13 := daysBeforeMonth_13 y
        omega
    · have hnot := hc
      push_neg at hc
      obtain ⟨hgt, hlt12⟩ := hc
      have heq : fomAux y (f + 1) m k = fomAux y f (m + 1) (k - daysInMonth y m) := by
        simp only [fomAux]; rw [if_neg hnot]
      rw [heq]
      have hstep := daysBeforeMonth_step y m h1 (by omega)
      have hres := ih (m + 1) (k - daysInMonth y m) (by omega) (by omega) (by omega)
        (by omega) (by omega)
      obtain ⟨he, r1, r2, r3, r4⟩ := hres
      exact ⟨by omega, r1, r2, r3, r4⟩

theorem foyAux_spec :
    ∀ f y k : ℕ, 1 ≤ y → 1 ≤ k → k ≤ f →
      toOrdinal (foyAux f y k) = daysBeforeYear y + k ∧ DateOK (foyAux f y k) := by
  intro f
  induction f with
  | zero =>
    intro y k hy hk hkf
    exact absurd (Nat.le_trans hk hkf) (by decide)
  | succ f ih =>
    intro y k hy hk hkf
    by_cases hc : daysInYear y < k
    · have heq : foyAux (f + 1) y k = foyAux f (y + 1) (k - daysInYear y) := by
        conv_lhs => rw [foyAux]
        rw [if_pos hc]
      rw [heq]
      have hdg := daysInYear_ge y
      have hres := ih (y + 1) (k - daysInYear y) (by omega) (by omega) (by omega)
      obtain ⟨he, hok⟩ := hres
      have hs := daysBeforeYear_succ y hy
      exact ⟨by omega, hok⟩
    · have heq : foyAux (f + 1) y k = ⟨y, (fromOrdinalMonth y k).1, (fromOrdinalMonth y k).2⟩ := by
        unfold foyAux; rw [if_neg hc]
      rw [heq]
      have hin : daysBeforeMonth y 1 + k ≤ daysInYear y := by
        rw [daysBeforeMonth_one]; omega
      have hres := fomAux_spec y 12 1 k (by omega) (by omega) hk hin (by omega)
      rw [daysBeforeMonth_one] at hres
      obtain ⟨he, r1, r2, r3, r4⟩ := hres
      refine ⟨?_, hy, r1, r2, r3, r4⟩
      show daysBeforeYear y + daysBeforeMonth y (fomAux y 12 1 k).1 +
        (fomAux y 12 1 k).2 = daysBeforeYear y + k
      omega

theorem toOrdinal_fromOrdinal (n : ℕ) (h : 1 ≤ n) : toOrdinal (fromOrdinal n) = n := by
  have hres := (foyAux_spec n 1 n (by omega) h (Nat.le_refl n)).1
  rw [daysBeforeYear_one] at hres
  unfold fromOrdinal
  omega

theorem DateOK_fromOrdinal (n : ℕ) (h : 1 ≤ n) : DateOK (fromOrdinal n) :=
  (foyAux_spec n 1 n (by omega) h (Nat.le_refl n)).2

theorem toOrdinal_lt (a b : Date) (ha : DateOK a) (hb : DateOK b)
    (hab : a.year < b.year ∨ (a.year = b.year ∧ a.month < b.month) ∨
      (a.year = b.year ∧ a.month = b.month ∧ a.day < b.day)) :
    toOrdinal a < toOrdinal b := by
  obtain ⟨hya, hma1, hma2, hda1, hda2⟩ := ha
  obtain ⟨hyb, hmb1, hmb2, hdb1, hdb2⟩ := hb
  rcases hab with hy | ⟨hy, hm⟩ | ⟨hy, hm, hd⟩
  · have hub := (toOrdinal_bounds a ⟨hya, hma1, hma2, hda1, hda2⟩).2
    have hlb := (toOrdinal_bounds b ⟨hyb, hmb1, hmb2, hdb1, hdb2⟩).1
    have hsucc := daysBeforeYear_succ a.year hya
    have hmono := daysBeforeYear_mono (y := a.year + 1) (z := b.year) (by omega)
    omega
  · unfold toOrdinal
    rw [hy]
    have hstep := daysBeforeMonth_step b.year a.month hma1 hma2
    have hmono := daysBeforeMonth_mono b.year (m := a.month + 1) (n := b.month)
      (by omega) (by omega) (by omega)
    rw [hy] at hda2
    omega
  · unfold toOrdinal
    rw [hy, hm]
    omega

theorem toOrdinal_inj (a b : Date) (ha : DateOK a) (hb : DateOK b)
    (h : toOrdinal a = toOrdinal b) : a = b := by
  have hy : a.year = b.year := by
    rcases Nat.lt_trichotomy a.year b.year with hlt | heq | hgt
    · exact absurd h (Nat.ne_of_lt (toOrdinal_lt a b ha hb (Or.inl hlt)))
    · exact heq
    · exact absurd h.symm (Nat.ne_of_lt (toOrdinal_lt b a hb ha (Or.inl hgt)))
  have hm : a.month = b.month := by
    rcases Nat.lt_trichotomy a.month b.month with hlt | heq | hgt
    · exact absurd h (Nat.ne_of_lt (toOrdinal_lt a b ha hb (Or.inr (Or.inl ⟨hy, hlt⟩))))
    · exact heq
    · exact absurd h.symm (Nat.ne_of_lt (toOrdinal_lt b a hb ha (Or.inr (Or.inl ⟨hy.symm, hgt⟩))))
  have hd : a.day = b.day := by
    unfold toOrdinal at h
    rw [hy, hm] at h
    omega
  rcases a with ⟨ya, ma, da⟩
  rcases b with ⟨yb, mb, db⟩
  simp only at hy hm hd
  rw [hy, hm, hd]

theorem fromOrdinal_toOrdinal (d : Date) (h : DateOK d) : fromOrdinal (toOrdinal d) = d := by
  have hpos : 1 ≤ toOrdinal d := toOrdinal_pos d h.2.2.2.1
  exact toOrdinal_inj _ d (DateOK_fromOrdinal _ hpos) h (toOrdinal_fromOrdinal _ hpos)

example : parseDate "1989-09-05" = some ⟨1989, 9, 5⟩ := by decide
example : parseDate "1989-9-5" = some ⟨1989, 9, 5⟩ := by decide
example : parseDate "05/09/1989" = none := by decide
example : parseDate "" = none := by decide
example : parseDate "1991-02-29" = none := by decide
example : parseDate "1992-02-29" = some ⟨1992, 2, 29⟩ := by decide

/-! The matcher characterised through ordinals. -/

theorem toOrdinal_mk (y m d : ℕ) :
    toOrdinal ⟨y, m, d⟩ = daysBeforeYear y + daysBeforeMonth y m + d := rfl

theorem validDate_mk (y m d : ℕ) :
    validDate ⟨y, m, d⟩ ↔
      1 ≤ y ∧ y ≤ 9999 ∧ 1 ≤ m ∧ m ≤ 12 ∧ 1 ≤ d ∧ d ≤ daysInMonth y m :=
  Iff.rfl

theorem validDate_DateOK (d : Date) (h : validDate d) : DateOK d :=
  ⟨h.1, h.2.2.1, h.2.2.2.1, h.2.2.2.2.1, h.2.2.2.2.2⟩

/-- `dateMatches` with the program's fixed 20-day lead is exact-date
equality on ordinals: it returns true precisely when today's day number is
20 less than the day number of the anniversary recomputed in today's year. -/
theorem dateMatches20_iff (today stored : Date) (h1 : validDate today)
    (h2 : validDate ⟨today.year, stored.month, stored.day⟩) :
    dateMatches today stored 20 = true ↔
      toOrdinal today + 20 = toOrdinal ⟨today.year, stored.month, stored.day⟩ := by
  have hce : candidateEvent today.year stored = some ⟨today.year, stored.month, stored.day⟩ := by
    unfold candidateEvent; rw [if_pos h2]
  by_cases h20 : 20 < toOrdinal ⟨today.year, stored.month, stored.day⟩
  · have hsd : subDays ⟨today.year, stored.month, stored.day⟩ 20 =
        some (fromOrdinal (toOrdinal ⟨today.year, stored.month, stored.day⟩ - 20)) := by
      unfold subDays; rw [if_pos h20]
    simp only [dateMatches, hce, hsd, beq_iff_eq]
    constructor
    · intro he
      have hco := congrArg toOrdinal he
      rw [toOrdinal_fromOrdinal _ (by omega)] at hco
      omega
    · intro he
      have heq : toOrdinal ⟨today.year, stored.month, stored.day⟩ - 20 = toOrdinal today := by
        omega
      rw [heq, fromOrdinal_toOrdinal today (validDate_DateOK today h1)]
  · have hsd : subDays ⟨today.year, stored.month, stored.day⟩ 20 = none := by
      unfold subDays; rw [if_neg h20]
    simp only [dateMatches, hce, hsd]
    have hpos := toOrdinal_pos today h1.2.2.2.2.1
    constructor
    · intro hfalse
      exact absurd hfalse (by simp)
    · intro he
      omega

/-- C1: for every valid triple `(today, storedDate, leadDays = 20)` the
matcher returns true iff today equals the stored anniversary recomputed in
today's year minus 20 days (stated on day ordinals, the calendar-date
arithmetic `timedelta` subtraction performs).  Validity means both `today`
and the recomputed event are constructible `datetime` values. -/
theorem claim1_matches_iff_sendDate (today stored : Date) (h1 : validDate today)
    (h2 : validDate (recomputeEventForYear today.year stored)) :
    dateMatches today stored 20 = true ↔
      toOrdinal today + 20 = toOrdinal (recomputeEventForYear today.year stored) :=
  dateMatches20_iff today stored h1 h2

/-- C1 witness: the spec scenario `today = 2024-08-16`,
`storedDate = 1989-09-05`, lead 20 — candidate 2024-09-05, send date
2024-08-16, match true. -/
theorem claim1_witness :
    dateMatches ⟨2024, 8, 16⟩ ⟨1989, 9, 5⟩ 20 = true :=
  (claim1_matches_iff_sendDate ⟨2024, 8, 16⟩ ⟨1989, 9, 5⟩ (by decide) (by decide)).mpr
    (by decide)

/-- C2 counterexample: the code never carries the anniversary into the next
year, so a stored January 10 anniversary (whose send date falls in the
previous December) is matched by no value of `today` at all — refuting the
claim that every stored month/day has a matching reminder day. -/
theorem claim2_counterexample :
    ¬ ∃ today : Date, validDate today ∧ dateMatches today ⟨1989, 1, 10⟩ 20 = true := by
  rintro ⟨t, hv, hm⟩
  have hv1 := (validDate_mk t.year t.month t.day).mp hv
  have hcv : validDate ⟨t.year, 1, 10⟩ := by
    rw [validDate_mk]
    refine ⟨hv1.1, hv1.2.1, by omega, by omega, by omega, ?_⟩
    unfold daysInMonth daysInMonthTable
    simp
  have heq : toOrdinal t + 20 = daysBeforeYear t.year + daysBeforeMonth t.year 1 + 10 :=
    (dateMatches20_iff t ⟨1989, 1, 10⟩ hv hcv).mp hm
  have hb := (toOrdinal_bounds t (validDate_DateOK t hv)).1
  rw [daysBeforeMonth_one] at heq
  omega

/-- C2 amended: subtracting the lead time does use ordinary calendar-date
arithmetic across month boundaries, but the anniversary is never carried
into the next year; a stored month/day therefore has a matching `today`
exactly when its day-of-year exceeds the 20-day lead, and then
`today = anniversary-in-year − 20 days` matches. -/
theorem claim2_amended (y : ℕ) (stored : Date)
    (hv : validDate ⟨y, stored.month, stored.day⟩)
    (hgt : 20 < daysBeforeMonth y stored.month + stored.day) :
    dateMatches (fromOrdinal (toOrdinal ⟨y, stored.month, stored.day⟩ - 20)) stored 20 = true := by
  have hv1 := (validDate_mk y stored.month stored.day).mp hv
  have hN := toOrdinal_mk y stored.month stored.day
  have hk1 : 1 ≤ toOrdinal ⟨y, stored.month, stored.day⟩ - 20 := by omega
  have hok := DateOK_fromOrdinal _ hk1
  have htor := toOrdinal_fromOrdinal _ hk1
  have hdol := dayOfYear_le y stored.month stored.day hv1.2.2.1 hv1.2.2.2.1 hv1.2.2.2.2.2
  have hyr : (fromOrdinal (toOrdinal ⟨y, stored.month, stored.day⟩ - 20)).year = y := by
    have hb := toOrdinal_bounds _ hok
    rcases Nat.lt_trichotomy (fromOrdinal (toOrdinal ⟨y, stored.month, stored.day⟩ - 20)).year y
      with hlt | hyeq | hgt2
    · have hs := daysBeforeYear_succ _ hok.1
      have hmono := daysBeforeYear_mono
        (y := (fromOrdinal (toOrdinal ⟨y, stored.month, stored.day⟩ - 20)).year + 1) (z := y)
        (by omega)
      omega
    · exact hyeq
    · have hs := daysBeforeYear_succ y hv1.1
      have hmono := daysBeforeYear_mono (y := y + 1)
        (z := (fromOrdinal (toOrdinal ⟨y, stored.month, stored.day⟩ - 20)).year) (by omega)
      omega
  have hce : candidateEvent (fromOrdinal (toOrdinal ⟨y, stored.month, stored.day⟩ - 20)).year
      stored = some ⟨y, stored.month, stored.day⟩ := by
    rw [hyr]
    unfold candidateEvent
    rw [if_pos hv]
  have hsd : subDays ⟨y, stored.month, stored.day⟩ 20 =
      some (fromOrdinal (toOrdinal ⟨y, stored.month, stored.day⟩ - 20)) := by
    unfold subDays
    rw [if_pos (by omega)]
  simp only [dateMatches, hce, hsd, beq_self_eq_true]

/-- C2 witness for the amended claim: September 5 has day-of-year well past
20, and 20 days before the 2024 anniversary is a matching `today`. -/
theorem claim2_witness :
    dateMatches (fromOrdinal (toOrdinal ⟨2024, 9, 5⟩ - 20)) ⟨1989, 9, 5⟩ 20 = true :=
  claim2_amended 2024 ⟨1989, 9, 5⟩ (by decide) (by decide)

/-- C3 counterexample: when the stored month/day recomputed in the current
year falls exactly 20 (= leadDays) days after today, the match is TRUE, not
false — today 2024-08-16 with stored 1989-09-05 is exactly this boundary
and it matches. -/
theorem claim3_counterexample :
    toOrdinal (recomputeEventForYear 2024 ⟨1989, 9, 5⟩) = toOrdinal ⟨2024, 8, 16⟩ + 20 ∧
      dateMatches ⟨2024, 8, 16⟩ ⟨1989, 9, 5⟩ 20 = true := by
  constructor <;> decide

/-- C3 amended: only exact equality of today with the computed send date
matches — whenever today's ordinal plus 20 differs from the recomputed
anniversary's ordinal (for example the spec's `today = 2024-08-17`, whose
anniversary is 19 days away), the match is false; never membership in a
window. -/
theorem claim3_amended (today stored : Date) (h1 : validDate today)
    (h2 : validDate (recomputeEventForYear today.year stored))
    (hne : toOrdinal today + 20 ≠ toOrdinal (recomputeEventForYear today.year stored)) :
    dateMatches today stored 20 = false := by
  have hiff := dateMatches20_iff today stored h1 h2
  cases hb : dateMatches today stored 20 with
  | false => rfl
  | true => exact absurd (hiff.mp hb) hne

/-- C3 witness: the spec scenario `today = 2024-08-17` with stored
1989-09-05 does not match. -/
theorem claim3_witness :
    dateMatches ⟨2024, 8, 17⟩ ⟨1989, 9, 5⟩ 20 = false :=
  claim3_amended ⟨2024, 8, 17⟩ ⟨1989, 9, 5⟩ (by decide) (by decide) (by decide)

/-- C4 counterexample: 2023 is not a leap year and a stored Feb-29 date is
matched by NO day of 2023 — the record is dropped (the `datetime`
constructor raises `ValueError` and the `except ValueError` skips it), it
does not fall back to Feb 28. -/
theorem claim4_counterexample :
    isLeapYear 2023 = false ∧
      ¬ ∃ today : Date, today.year = 2023 ∧ dateMatches today ⟨1992, 2, 29⟩ 20 = true := by
  refine ⟨by decide, ?_⟩
  rintro ⟨t, hy, hm⟩
  have hce : candidateEvent t.year ⟨1992, 2, 29⟩ = none := by
    rw [hy]
    decide
  simp [dateMatches, hce] at hm

/-- C4 amended: a stored Feb-29 anniversary never matches when today's year
is not a leap year: building the candidate event raises `ValueError`, the
record is skipped, and no Feb-28 fallback exists. -/
theorem claim4_amended (today stored : Date) (hm : stored.month = 2) (hd : stored.day = 29)
    (hl : isLeapYear today.year = false) :
    dateMatches today stored 20 = false := by
  have hdim : daysInMonth today.year 2 = 28 := by
    unfold daysInMonth daysInMonthTable
    rw [hl]
    simp
  have hnv : ¬ validDate ⟨today.year, stored.month, stored.day⟩ := by
    rw [hm, hd, validDate_mk]
    intro hv
    obtain ⟨_, _, _, _, _, h29⟩ := hv
    omega
  have hce : candidateEvent today.year stored = none := by
    unfold candidateEvent
    rw [if_neg hnv]
  simp [dateMatches, hce]

/-- C4 witness: stored 1992-02-29, today 2023-02-08 (which would be the
send date of a Feb-28 fallback): no match. -/
theorem claim4_witness :
    dateMatches ⟨2023, 2, 8⟩ ⟨1992, 2, 29⟩ 20 = false :=
  claim4_amended ⟨2023, 2, 8⟩ ⟨1992, 2, 29⟩ rfl rfl (by decide)

/-- C5: year-invariance — for any two well-formed stored date strings that
parse to dates agreeing on month and day, the match result is identical for
every today and every lead; the stored year is never consulted. -/
theorem claim5_year_invariance (today : Date) (lead : ℕ) (s1 s2 : String) (d1 d2 : Date)
    (h1 : parseDate s1 = some d1) (h2 : parseDate s2 = some d2)
    (hm : d1.month = d2.month) (hd : d1.day = d2.day) :
    dateMatches today d1 lead = dateMatches today d2 lead := by
  have hce : candidateEvent today.year d1 = candidateEvent today.year d2 := by
    unfold candidateEvent
    rw [hm, hd]
  unfold dateMatches
  rw [hce]

/-- C5 witness: `"1989-09-05"` and `"2001-09-05"` produce the same match
result on the spec's scenario day. -/
theorem claim5_witness :
    dateMatches ⟨2024, 8, 16⟩ ⟨1989, 9, 5⟩ 20 = dateMatches ⟨2024, 8, 16⟩ ⟨2001, 9, 5⟩ 20 :=
  claim5_year_invariance ⟨2024, 8, 16⟩ 20 "1989-09-05" "2001-09-05" ⟨1989, 9, 5⟩ ⟨2001, 9, 5⟩
    (by decide) (by decide) rfl rfl

/-! Data-error handling in the record loop. -/

theorem recordDecision_malformed (today : Date) (lead : ℕ) (r : Record)
    (h : malformedRecord r) : recordDecision today lead r = Except.ok false := by
  rcases he : r.event_date with _ | s
  · simp [recordDecision, he]
  · have hp : parseDate s = none := by
      have h2 : malformedRecord r = (parseDate s = none) := by
        unfold malformedRecord
        rw [he]
      rw [h2] at h
      exact h
    by_cases hs : s = ""
    · simp [recordDecision, he, hs]
    · simp [recordDecision, he, hs, hp]

theorem gatherTargets_skip (today : Date) (lead : ℕ) (r : Record)
    (h : malformedRecord r) (rs1 rs2 : List Record) :
    gatherTargets today lead (rs1 ++ r :: rs2) = gatherTargets today lead (rs1 ++ rs2) := by
  have hdec := recordDecision_malformed today lead r h
  induction rs1 with
  | nil =>
    simp only [List.nil_append, gatherTargets, hdec]
    rcases hg : gatherTargets today lead rs2 with e | ts <;> simp
  | cons a as ih =>
    simp only [List.cons_append, gatherTargets, List.append_eq]
    rw [ih]

theorem gatherTargets_mem (today : Date) (lead : ℕ) :
    ∀ (rs ts : List Record) (r : Record), gatherTargets today lead rs = Except.ok ts →
      r ∈ ts → recordDecision today lead r = Except.ok true := by
  intro rs
  induction rs with
  | nil =>
    intro ts r hg hm
    simp only [gatherTargets] at hg
    obtain rfl : ([] : List Record) = ts := by
      simpa using hg
    simp at hm
  | cons a as ih =>
    intro ts r hg hm
    simp only [gatherTargets] at hg
    rcases hda : recordDecision today lead a with e | b <;> rw [hda] at hg
    · simp at hg
    · rcases hgs : gatherTargets today lead as with e2 | ts2 <;> rw [hgs] at hg
      · simp at hg
      · cases b
        · simp only [if_neg Bool.false_ne_true] at hg
          obtain rfl : ts2 = ts := by simpa using hg
          exact ih _ r hgs hm
        · simp only [if_pos rfl] at hg
          obtain rfl : a :: ts2 = ts := by simpa using hg
          rcases List.mem_cons.mp hm with heq | hmem
          · subst heq
            exact hda
          · exact ih ts2 r hgs hmem

/-- C6: a fetched record whose `event_date` is missing or whose string does
not parse as `YYYY-MM-DD` never raises: the loop produces exactly the result
it would produce without that record (the rest of the batch is still
processed), and the record itself never appears among the matches. -/
theorem claim6_malformed_skipped (today : Date) (lead : ℕ) (r : Record)
    (h : malformedRecord r) (rs1 rs2 : List Record) :
    gatherTargets today lead (rs1 ++ r :: rs2) = gatherTargets today lead (rs1 ++ rs2) ∧
      ∀ ts, gatherTargets today lead (rs1 ++ r :: rs2) = Except.ok ts → r ∉ ts := by
  refine ⟨gatherTargets_skip today lead r h rs1 rs2, ?_⟩
  intro ts hg hmem
  have htrue := gatherTargets_mem today lead _ ts r hg hmem
  have hfalse := recordDecision_malformed today lead r h
  rw [htrue] at hfalse
  simp at hfalse

/-- C6 witness: the spec's malformed date `"05/09/1989"` is skipped while a
well-formed record in the same batch still matches on 2024-08-16. -/
theorem claim6_witness :
    malformedRecord sampleBad ∧
      gatherTargets ⟨2024, 8, 16⟩ 20 ([] ++ sampleBad :: [sampleGood]) =
        gatherTargets ⟨2024, 8, 16⟩ 20 ([] ++ [sampleGood]) ∧
      sampleBad ∉ [sampleGood] := by
  have hmal : malformedRecord sampleBad := by
    have h2 : malformedRecord sampleBad = (parseDate "05/09/1989" = none) := rfl
    rw [h2]
    decide
  have h := claim6_malformed_skipped ⟨2024, 8, 16⟩ 20 sampleBad hmal [] [sampleGood]
  exact ⟨hmal, h.1, h.2 [sampleGood] (by rfl)⟩

/-! Formatter output contract. -/

theorem string_append_assoc (a b c : String) : a ++ b ++ c = a ++ (b ++ c) := by
  apply String.ext
  simp only [String.data_append, List.append_assoc]

theorem string_append_empty (s : String) : s ++ "" = s := by
  apply String.ext
  simp [String.data_append]

theorem renderEntries_cons_ne (r : Record) (rs : List Record) (h : rs ≠ []) :
    renderEntries (r :: rs) = renderEntry r ++ ("\n" ++ renderEntries rs) := by
  simp only [renderEntries]
  rw [if_neg h]

theorem renderEntries_singleton (r : Record) : renderEntries [r] = renderEntry r := by
  simp [renderEntries, string_append_empty]

theorem renderEntries_append (l1 l2 : List Record) (h1 : l1 ≠ []) (h2 : l2 ≠ []) :
    renderEntries (l1 ++ l2) = renderEntries l1 ++ "\n" ++ renderEntries l2 := by
  induction l1 with
  | nil => exact absurd rfl h1
  | cons r rs ih =>
    cases rs with
    | nil =>
      have hne : ([r] : List Record) ++ l2 = r :: l2 := rfl
      rw [hne, renderEntries_cons_ne r l2 h2, renderEntries_singleton, string_append_assoc]
    | cons r2 rs2 =>
      have hne : (r2 :: rs2 : List Record) ≠ [] := by simp
      have hne2 : (r2 :: rs2) ++ l2 ≠ [] := by simp
      have hstep : (r :: r2 :: rs2 : List Record) ++ l2 = r :: ((r2 :: rs2) ++ l2) := rfl
      rw [hstep, renderEntries_cons_ne r _ hne2, renderEntries_cons_ne r _ hne, ih hne]
      simp [string_append_assoc]

/-- C7: on the empty record set the formatter returns the fixed no-data
sentinel (the header followed by the fixed no-records line); in the main
flow with an empty batch the sender is still invoked, with the status
message; and for non-empty input the rendered entries appear in input
order (rendering distributes over list concatenation). -/
theorem claim7_empty_and_order (header footer nowStr targetStr : String) (env : Env)
    (today : Date) (post : String → Except String HttpResponse)
    (hsup : supabaseInitOk env = true) (htel : telegramInitOk env = true)
    (htest : truthy env.test_message = false)
    (l1 l2 : List Record) (h1 : l1 ≠ []) (h2 : l2 ≠ []) :
    format_contact_message [] header footer =
        header ++ "\n\n📋 На сегодня нет записей о днях рождения" ∧
      runMain env today nowStr targetStr (Except.ok []) post =
        MainOutcome.success [statusMessage nowStr targetStr] ∧
      renderEntries (l1 ++ l2) = renderEntries l1 ++ "\n" ++ renderEntries l2 := by
  refine ⟨?_, ?_, renderEntries_append l1 l2 h1 h2⟩
  · simp [format_contact_message]
  · simp [runMain, hsup, htel, htest, get_contact_data, gatherTargets]

/-- C7 witness: a concrete empty run still sends the status message, and
two one-record lists render in order. -/
theorem claim7_witness :
    format_contact_message [] "H" "F" =
        "H" ++ "\n\n📋 На сегодня нет записей о днях рождения" ∧
      runMain envSample ⟨2024, 8, 16⟩ "now" "target" (Except.ok []) postFail =
        MainOutcome.success [statusMessage "now" "target"] ∧
      renderEntries ([sampleGood] ++ [sampleBad]) =
        renderEntries [sampleGood] ++ "\n" ++ renderEntries [sampleBad] :=
  claim7_empty_and_order "H" "F" "now" "target" envSample ⟨2024, 8, 16⟩ postFail
    rfl rfl rfl [sampleGood] [sampleBad] (by simp) (by simp)

/-! Send failures, configuration failures and fetch failures in `main`. -/

theorem runMain_success (env : Env) (today : Date) (nowStr targetStr : String)
    (fetch : Except Unit (List Record)) (post : String → Except String HttpResponse)
    (hsup : supabaseInitOk env = true) (htel : telegramInitOk env = true) :
    ∃ msgs, runMain env today nowStr targetStr fetch post = MainOutcome.success msgs := by
  unfold runMain
  rw [hsup, htel]
  simp only [Bool.true_eq_false, if_false]
  by_cases htm : truthy env.test_message = true
  · rw [if_pos htm]
    exact ⟨_, rfl⟩
  · rw [if_neg htm]
    by_cases hc : get_contact_data today fetch = []
    · rw [if_pos hc]
      exact ⟨_, rfl⟩
    · rw [if_neg hc]
      exact ⟨_, rfl⟩

/-- C8: `send_message` returns a Boolean — true exactly when the HTTP post
succeeded with a non-error status, false when the request raised or
`raise_for_status` flagged the response — the exception never escapes, and a
run whose every send fails still completes normally (the batch result is a
`success` outcome, never an exception). -/
theorem claim8_send_failure_tolerated (resp : Except String HttpResponse) (env : Env)
    (today : Date) (nowStr targetStr : String) (fetch : Except Unit (List Record))
    (post : String → Except String HttpResponse)
    (hsup : supabaseInitOk env = true) (htel : telegramInitOk env = true)
    (hfail : ∀ t, send_message (post t) = false) :
    (send_message resp = true ↔ ∃ r, resp = Except.ok r ∧ r.status < 400) ∧
      ∃ msgs, runMain env today nowStr targetStr fetch post = MainOutcome.success msgs := by
  refine ⟨?_, runMain_success env today nowStr targetStr fetch post hsup htel⟩
  rcases resp with e | r
  · simp [send_message]
  · by_cases hs : 400 ≤ r.status
    · simp only [send_message, raise_for_status, if_pos hs]
      constructor
      · intro hfalse
        exact absurd hfalse (by simp)
      · rintro ⟨r2, hr2, hlt⟩
        obtain rfl : r = r2 := by simpa using hr2
        omega
    · simp only [send_message, raise_for_status, if_neg hs]
      constructor
      · intro _
        exact ⟨r, rfl, by omega⟩
      · intro _
        trivial

/-- C8 witness: a timed-out post yields `False` (and only a sub-400 response
yields `True`), and a run in which every send fails still succeeds. -/
theorem claim8_witness :
    (send_message (Except.error "timeout" : Except String HttpResponse) = true ↔
        ∃ r, (Except.error "timeout" : Except String HttpResponse) = Except.ok r ∧
          r.status < 400) ∧
      ∃ msgs, runMain envSample ⟨2024, 8, 16⟩ "now" "target" (Except.ok []) postFail =
        MainOutcome.success msgs :=
  claim8_send_failure_tolerated (Except.error "timeout") envSample ⟨2024, 8, 16⟩
    "now" "target" (Except.ok []) postFail rfl rfl (fun _ => rfl)

/-- C9: a missing credential makes initialisation raise `ValueError`
immediately and `main` re-raises after a best-effort notification
(`errorOutcome`, whose notification may itself fail silently), so the
process exits non-zero; with all four credentials present the run always
finishes with a `success` outcome (normal completion or an intentional
early return). -/
theorem claim9_config_fatal (env : Env) (today : Date) (nowStr targetStr : String)
    (fetch : Except Unit (List Record)) (post : String → Except String HttpResponse) :
    (supabaseInitOk env = false →
        runMain env today nowStr targetStr fetch post =
          errorOutcome env post "Missing Supabase credentials") ∧
      (supabaseInitOk env = true → telegramInitOk env = false →
        runMain env today nowStr targetStr fetch post =
          errorOutcome env post "Missing Telegram credentials") ∧
      (supabaseInitOk env = true → telegramInitOk env = true →
        ∃ msgs, runMain env today nowStr targetStr fetch post = MainOutcome.success msgs) := by
  refine ⟨?_, ?_, fun hsup htel => runMain_success env today nowStr targetStr fetch post hsup htel⟩
  · intro hsup
    unfold runMain
    rw [hsup]
    simp
  · intro hsup htel
    unfold runMain
    rw [hsup, htel]
    simp

/-- C9 witness: missing Supabase or Telegram credentials each produce the
corresponding fatal outcome, while the full environment succeeds. -/
theorem claim9_witness :
    runMain envNoSupabase ⟨2024, 8, 16⟩ "now" "target" (Except.ok []) postFail =
        errorOutcome envNoSupabase postFail "Missing Supabase credentials" ∧
      runMain envNoTelegram ⟨2024, 8, 16⟩ "now" "target" (Except.ok []) postFail =
        errorOutcome envNoTelegram postFail "Missing Telegram credentials" ∧
      ∃ msgs, runMain envSample ⟨2024, 8, 16⟩ "now" "target" (Except.ok []) postFail =
        MainOutcome.success msgs :=
  ⟨(claim9_config_fatal envNoSupabase ⟨2024, 8, 16⟩ "now" "target" (Except.ok []) postFail).1
      rfl,
    (claim9_config_fatal envNoTelegram ⟨2024, 8, 16⟩ "now" "target" (Except.ok []) postFail).2.1
      rfl rfl,
    (claim9_config_fatal envSample ⟨2024, 8, 16⟩ "now" "target" (Except.ok []) postFail).2.2
      rfl rfl⟩

/-- C10: every failure while querying the table or iterating its rows makes
`get_contact_data` return the empty list instead of raising, and the caller
then follows the no-records path, still sending the status message. -/
theorem claim10_fetch_error_empty (env : Env) (today : Date) (nowStr targetStr : String)
    (post : String → Except String HttpResponse) (rs : List Record)
    (hsup : supabaseInitOk env = true) (htel : telegramInitOk env = true)
    (htest : truthy env.test_message = false)
    (hiter : gatherTargets today 20 rs = Except.error ()) :
    get_contact_data today (Except.error ()) = [] ∧
      get_contact_data today (Except.ok rs) = [] ∧
      runMain env today nowStr targetStr (Except.error ()) post =
        MainOutcome.success [statusMessage nowStr targetStr] := by
  refine ⟨rfl, ?_, ?_⟩
  · simp [get_contact_data, hiter]
  · simp [runMain, hsup, htel, htest, get_contact_data]

/-- C10 witness: a failed query yields an empty batch and the status-message
path; a loop aborted by `OverflowError` (year-1 record) also yields an empty
batch. -/
theorem claim10_witness :
    get_contact_data ⟨1, 1, 5⟩ (Except.error ()) = [] ∧
      get_contact_data ⟨1, 1, 5⟩ (Except.ok [sampleOverflow]) = [] ∧
      runMain envSample ⟨1, 1, 5⟩ "now" "target" (Except.error ()) postFail =
        MainOutcome.success [statusMessage "now" "target"] :=
  claim10_fetch_error_empty envSample ⟨1, 1, 5⟩ "now" "target" postFail [sampleOverflow]
    rfl rfl rfl (by rfl)
